import Mathlib

/-!
Verification of the checklocks-demo repository: a demo of the gVisor
checklocks static analyzer. The analyzer engine itself is not part of
the repository sources (the repository contains only annotated demo
code and the expected linter output), so the engine is modelled from
the specification; the demo structs and functions of
pkg/resource/resource.go are embedded directly.
-/

namespace CheckLocks

/-- The lock identities occurring in the demo `ProtectedResource` struct
(resource.go lines 10, 18, 29): `mu`, `rwMu`, `acquireReleaseMu`. -/
inductive LockId
  | mu
  | rwMu
  | acquireReleaseMu
deriving DecidableEq, Repr

/-- Modelled from the spec: lock mode, one of NotHeld, HeldShared,
HeldExclusive (spec section 3, LockState). -/
inductive Mode
  | notHeld
  | heldShared
  | heldExclusive
deriving DecidableEq, Repr

/-- Modelled from the spec: the LockState at a program point, a mapping
from Lock identity to mode.  Represented as one mode per demo lock. -/
structure LockState where
  mu : Mode
  rwMu : Mode
  acquireReleaseMu : Mode
deriving DecidableEq, Repr

def LockState.get (s : LockState) : LockId → Mode
  | .mu => s.mu
  | .rwMu => s.rwMu
  | .acquireReleaseMu => s.acquireReleaseMu

def LockState.set (s : LockState) : LockId → Mode → LockState
  | .mu, m => { s with mu := m }
  | .rwMu, m => { s with rwMu := m }
  | .acquireReleaseMu, m => { s with acquireReleaseMu := m }

/-- The state with no locks held. -/
def LockState.none : LockState := ⟨.notHeld, .notHeld, .notHeld⟩

/-- Modelled from the spec: mode comparison for `Requires(lock, mode)`:
the caller's mode must equal or exceed the required mode; HeldExclusive
satisfies a shared requirement, HeldShared does not satisfy an
exclusive requirement (spec 4.5). -/
def Mode.geq : Mode → Mode → Bool
  | _, .notHeld => true
  | .heldExclusive, _ => true
  | .heldShared, .heldShared => true
  | _, _ => false

/-- Modelled from the spec: FieldContract (spec section 3): one of
Guarded(lock, exclusive-required), AtomicOnly, Mixed(lock), or no
contract at all for unguarded fields. -/
inductive FieldContract
  | unguarded
  | guarded (lock : LockId)
  | atomicOnly
  | mixed (lock : LockId)
deriving DecidableEq, Repr

/-- Modelled from the spec: FunctionContract (spec section 3): a
function carries zero or more of Requires(lock, mode), Acquires(lock),
Releases(lock), and possibly the Ignored suppression. -/
structure FunctionContract where
  requires : List (LockId × Mode)
  acquires : List LockId
  releases : List LockId
  ignored : Bool
deriving DecidableEq, Repr

/-- The empty contract of an unannotated function. -/
def FunctionContract.none : FunctionContract := ⟨[], [], [], false⟩

/-- Modelled from the spec: the diagnostic rule kinds of the error
taxonomy (spec section 7). -/
inductive DiagKind
  | accessViolation
  | atomicAccessViolation
  | mixedModeViolation
  | callPreconditionViolation
  | acquireViolation
  | releaseViolation
  | exitStateViolation
deriving DecidableEq, Repr

/-- Modelled from the spec: a Diagnostic carries its rule kind, the
location (statement index within the function), and the held-lock-set
snapshot at the point (spec section 3). -/
structure Diagnostic where
  kind : DiagKind
  loc : Nat
  snapshot : LockState
deriving DecidableEq, Repr

/-- Modelled from the spec: the Field-Access & Atomic Checker
(spec 4.4).  Guarded(lock): any read or write requires HeldExclusive,
otherwise AccessViolation.  AtomicOnly: any direct (non-atomic) access
is an AtomicAccessViolation, regardless of lock state.  Mixed(lock): a
read is permitted if atomic-qualified or the lock is HeldExclusive; a
write requires atomic-qualified and HeldExclusive, and a write missing
either condition yields both a lock-violation diagnostic (if lock not
held) and an atomic-violation diagnostic (if not atomic-qualified),
reported independently. -/
def checkFieldAccess (fc : FieldContract) (isWrite atomicQualified : Bool)
    (s : LockState) (loc : Nat) : List Diagnostic :=
  match fc with
  | .unguarded => []
  | .guarded l =>
      if s.get l = .heldExclusive then [] else [⟨.accessViolation, loc, s⟩]
  | .atomicOnly =>
      if atomicQualified then [] else [⟨.atomicAccessViolation, loc, s⟩]
  | .mixed l =>
      if isWrite then
        (if s.get l = .heldExclusive then [] else [⟨.accessViolation, loc, s⟩]) ++
        (if atomicQualified then [] else [⟨.atomicAccessViolation, loc, s⟩])
      else
        if atomicQualified || s.get l = .heldExclusive then []
        else [⟨.mixedModeViolation, loc, s⟩]

/-- Modelled from the spec: the Acquires(lock) call effect (spec 4.5):
caller's state must be NotHeld, otherwise AcquireViolation ("already
held"); after the call, state becomes HeldExclusive. -/
def applyAcquire (l : LockId) (s : LockState) (loc : Nat) :
    List Diagnostic × LockState :=
  ((if s.get l = .notHeld then [] else [⟨.acquireViolation, loc, s⟩]),
   s.set l .heldExclusive)

/-- Modelled from the spec: the Releases(lock) call effect (spec 4.5):
caller's state must be HeldExclusive, otherwise a combined
CallPreconditionViolation plus ReleaseViolation ("not held"); after the
call, state becomes NotHeld. -/
def applyRelease (l : LockId) (s : LockState) (loc : Nat) :
    List Diagnostic × LockState :=
  ((if s.get l = .heldExclusive then []
    else [⟨.callPreconditionViolation, loc, s⟩, ⟨.releaseViolation, loc, s⟩]),
   s.set l .notHeld)

def applyAcquires (ls : List LockId) (s : LockState) (loc : Nat) :
    List Diagnostic × LockState :=
  match ls with
  | [] => ([], s)
  | l :: rest =>
      let (d, s1) := applyAcquire l s loc
      let (ds, s2) := applyAcquires rest s1 loc
      (d ++ ds, s2)

def applyReleases (ls : List LockId) (s : LockState) (loc : Nat) :
    List Diagnostic × LockState :=
  match ls with
  | [] => ([], s)
  | l :: rest =>
      let (d, s1) := applyRelease l s loc
      let (ds, s2) := applyReleases rest s1 loc
      (d ++ ds, s2)

/-- Modelled from the spec: the Call-Site Contract Checker (spec 4.5).
Requires(lock, mode): the caller's state for the lock must equal or
exceed the mode, otherwise CallPreconditionViolation, and the state is
unchanged.  Then the Acquires and Releases effects are applied.  The
Ignored flag suppresses only internal-body checks, never call-site
enforcement. -/
def checkCall (fc : FunctionContract) (s : LockState) (loc : Nat) :
    List Diagnostic × LockState :=
  let reqDiags := fc.requires.foldr
    (fun p acc =>
      (if (s.get p.1).geq p.2 then []
       else [⟨.callPreconditionViolation, loc, s⟩]) ++ acc) []
  let (acqDiags, s1) := applyAcquires fc.acquires s loc
  let (relDiags, s2) := applyReleases fc.releases s1 loc
  (reqDiags ++ acqDiags ++ relDiags, s2)

/-- An instruction of a function body, as the analyzer sees it:
a field access, a recognized direct lock acquire/release call, a call
to a contract-bearing function, or a Force directive. -/
inductive Instr
  | access (fc : FieldContract) (isWrite atomicQualified : Bool)
  | lockAcquire (l : LockId) (shared : Bool)
  | lockRelease (l : LockId) (shared : Bool)
  | call (fc : FunctionContract)
  | force (l : LockId)
deriving DecidableEq, Repr

/-- Modelled from the spec: advancing the LockState across one
instruction (spec 4.3).  A recognized lock-acquire call transitions the
lock to HeldExclusive (HeldShared for shared acquire); acquiring an
already-held exclusive lock is an AcquireViolation and the engine
continues with the already-held mode.  A recognized lock-release call
transitions to NotHeld; releasing a NotHeld lock is a ReleaseViolation
and the state becomes NotHeld regardless.  A Force directive sets the
lock's mode to HeldExclusive unconditionally.  Field accesses and calls
are checked by the two checkers. -/
def stepInstr (i : Instr) (s : LockState) (loc : Nat) :
    List Diagnostic × LockState :=
  match i with
  | .access fc w a => (checkFieldAccess fc w a s loc, s)
  | .lockAcquire l shared =>
      if s.get l = .heldExclusive then ([⟨.acquireViolation, loc, s⟩], s)
      else ([], s.set l (if shared then .heldShared else .heldExclusive))
  | .lockRelease l _ =>
      if s.get l = .notHeld then ([⟨.releaseViolation, loc, s⟩], s.set l .notHeld)
      else ([], s.set l .notHeld)
  | .call fc => checkCall fc s loc
  | .force l => ([], s.set l .heldExclusive)

/-- `true` iff the instruction really releases lock `l`: a recognized
direct release call on `l`, or a call to a function whose contract
carries `Releases(l)`. -/
def releasesLock (l : LockId) : Instr → Bool
  | .lockRelease lr _ => lr == l
  | .call fc => fc.releases.contains l
  | _ => false

/-- Modelled from the spec: the forward propagation over a straight-line
body, numbering statements from `loc` and collecting diagnostics in
program order (spec 4.3). -/
def runBody (body : List Instr) (s : LockState) (loc : Nat) :
    List Diagnostic × LockState :=
  match body with
  | [] => ([], s)
  | i :: rest =>
      let (d, s1) := stepInstr i s loc
      let (ds, s2) := runBody rest s1 (loc + 1)
      (d ++ ds, s2)

/-- Modelled from the spec: the entry state of a function, seeded from
its own declared preconditions: Requires(l, m) seeds l at m, Acquires
requires NotHeld on entry, Releases requires HeldExclusive on entry
(spec 4.3). -/
def entryState (fc : FunctionContract) : LockState :=
  let s1 := fc.requires.foldl (fun s p => s.set p.1 p.2) LockState.none
  let s2 := fc.acquires.foldl (fun s l => s.set l .notHeld) s1
  fc.releases.foldl (fun s l => s.set l .heldExclusive) s2

/-- Modelled from the spec: the state a function is obliged to exhibit
at its return points: the entry state transformed by the function's own
contract (Acquires exits HeldExclusive, Releases exits NotHeld)
(spec section 3, invariants). -/
def expectedExitState (fc : FunctionContract) : LockState :=
  let s1 := fc.requires.foldl (fun s p => s.set p.1 p.2) LockState.none
  let s2 := fc.acquires.foldl (fun s l => s.set l .heldExclusive) s1
  fc.releases.foldl (fun s l => s.set l .notHeld) s2

/-- Modelled from the spec: per-function analysis.  A function carrying
Ignored has all internal checks suppressed (spec 4.5).  Otherwise the
body is propagated from the seeded entry state and the final state is
compared against the declared exit obligations; a mismatch produces an
ExitStateViolation ("return with unexpected locks held") (spec 4.3). -/
def analyzeFunction (fc : FunctionContract) (body : List Instr) :
    List Diagnostic :=
  if fc.ignored then []
  else
    let (ds, sExit) := runBody body (entryState fc) 0
    ds ++ (if sExit = expectedExitState fc then []
           else [⟨.exitStateViolation, body.length, sExit⟩])

/-! Concrete field contracts of `ProtectedResource`, translated from the
annotations of src/pkg/resource/resource.go lines 9-32. -/

/-- `value int` carries `+checklocks:mu` (resource.go line 11). -/
def fcValue : FieldContract := .guarded .mu

/-- `description string` carries `+checklocks:mu` (resource.go line 13). -/
def fcDescription : FieldContract := .guarded .mu

/-- `id string` is not guarded (resource.go line 16). -/
def fcId : FieldContract := .unguarded

/-- `readGuardedValue int` carries `+checklocks:rwMu` (line 19). -/
def fcReadGuardedValue : FieldContract := .guarded .rwMu

/-- `atomicValue int32` carries `+checkatomic` (line 22). -/
def fcAtomicValue : FieldContract := .atomicOnly

/-- `mixedValue int32` carries both `+checkatomic` and `+checklocks:mu`
(lines 25-26). -/
def fcMixedValue : FieldContract := .mixed .mu

/-! Concrete function contracts, translated from the function
annotations of resource.go. -/

/-- `setDataLocked` carries `+checklocks:pr.mu` (resource.go line 73). -/
def setDataLockedContract : FunctionContract :=
  ⟨[(.mu, .heldExclusive)], [], [], false⟩

/-- `readDataRLocked` carries `+checklocksread:pr.rwMu` (line 118). -/
def readDataRLockedContract : FunctionContract :=
  ⟨[(.rwMu, .heldShared)], [], [], false⟩

/-- `AcquireAndSet` carries `+checklocksacquire:pr.acquireReleaseMu`
(line 204). -/
def acquireAndSetContract : FunctionContract :=
  ⟨[], [.acquireReleaseMu], [], false⟩

/-- `GetAndRelease` carries `+checklocksrelease:pr.acquireReleaseMu`
(line 213). -/
def getAndReleaseContract : FunctionContract :=
  ⟨[], [], [.acquireReleaseMu], false⟩

/-- `FunctionToIgnore` carries `+checklocksignore` (line 249). -/
def functionToIgnoreContract : FunctionContract := ⟨[], [], [], true⟩

/-! Concrete function bodies as the analyzer sees them, translated
statement by statement from resource.go. -/

/-- `IncorrectSetData` (resource.go lines 57-60): two direct writes to
mu-guarded fields, no lock operation. -/
def incorrectSetDataBody : List Instr :=
  [.access fcValue true false,
   .access fcDescription true false]

/-- `WriteMixedIncorrectNeither` (lines 195-199): a single direct
(non-atomic) write to the mixed field without holding mu. -/
def writeMixedIncorrectNeitherBody : List Instr :=
  [.access fcMixedValue true false]

/-- `WriteMixedCorrect` (lines 174-178): lock mu, atomic store to the
mixed field, unlock mu. -/
def writeMixedCorrectBody : List Instr :=
  [.lockAcquire .mu false,
   .access fcMixedValue true true,
   .lockRelease .mu false]

/-- `CallAcquireReleaseIncorrectRelease` (lines 241-244): a single call
to `GetAndRelease` with no lock held. -/
def callAcquireReleaseIncorrectReleaseBody : List Instr :=
  [.call getAndReleaseContract]

/-- `CallAcquireReleaseIncorrectAcquire` (lines 233-238): manually lock
`acquireReleaseMu`, call `AcquireAndSet`, unlock. -/
def callAcquireReleaseIncorrectAcquireBody : List Instr :=
  [.lockAcquire .acquireReleaseMu false,
   .call acquireAndSetContract,
   .lockRelease .acquireReleaseMu false]

/-- `ForceExample` (lines 261-271): a direct write to the mu-guarded
`value`, then a read of `value` carrying `+checklocksforce: pr.mu`
(the force applies at that statement), then a direct write to the
mu-guarded `description`; the lock is never really acquired or
released. -/
def forceExampleBody : List Instr :=
  [.access fcValue true false,
   .force .mu,
   .access fcValue false false,
   .access fcDescription true false]

/-- `FunctionToIgnore` (lines 250-253): a direct write to the
mu-guarded `value` with no lock held, inside an ignored function. -/
def functionToIgnoreBody : List Instr :=
  [.access fcValue true false]

/-- `IncorrectDirectReadAtomic` (lines 149-151): a direct (non-atomic)
read of the atomic-only field. -/
def incorrectDirectReadAtomicBody : List Instr :=
  [.access fcAtomicValue false false]

/-- `IncrementAtomicCorrect` (lines 139-141): an atomic read-modify-write
of the atomic-only field. -/
def incrementAtomicCorrectBody : List Instr :=
  [.access fcAtomicValue true true]

/-- `CallReadDataRLockedIncorrect` (lines 132-134): a call to
`readDataRLocked` with no lock held. -/
def callReadDataRLockedIncorrectBody : List Instr :=
  [.call readDataRLockedContract]

/-- `CallReadDataRLockedCorrect` (lines 124-129): shared-acquire rwMu,
call `readDataRLocked`, shared-release rwMu. -/
def callReadDataRLockedCorrectBody : List Instr :=
  [.lockAcquire .rwMu true,
   .call readDataRLockedContract,
   .lockRelease .rwMu true]

/-- `CallIgnoredFunction` (resource.go lines 256-258): a single call to
the ignored function. -/
def callIgnoredFunctionBody : List Instr :=
  [.call functionToIgnoreContract]

/-- Modelled from the spec: end-to-end scenario 4's caller — a function
that calls the ignored function and also itself performs an unguarded
write to the mu-guarded `value`, violating its own contract. -/
def callerOfIgnoredBody : List Instr :=
  [.call functionToIgnoreContract,
   .access fcValue true false]

end CheckLocks

namespace Resource

/-- The data fields of `ProtectedResource` (resource.go lines 9-32);
the mutexes carry no data and are omitted from the value model. -/
structure ProtectedResource where
  value : Int
  description : String
  id : String
  readGuardedValue : Int
  atomicValue : Int
  mixedValue : Int
  acquireReleaseValue : Int
deriving DecidableEq, Repr

/-- `NewProtectedResource` (resource.go lines 35-45). -/
def NewProtectedResource (initialValue initialReadValue initialAcqRelValue :
    Int) (initialAtomic initialMixed : Int)
    (initialDesc initialID : String) : ProtectedResource :=
  { value := initialValue
    description := initialDesc
    id := initialID
    readGuardedValue := initialReadValue
    atomicValue := initialAtomic
    mixedValue := initialMixed
    acquireReleaseValue := initialAcqRelValue }

/-- `SetData` (resource.go lines 48-53): locks mu, writes `value` and
`description`, unlocks.  The lock carries no data, so the value-level
effect is the two field writes. -/
def ProtectedResource.SetData (pr : ProtectedResource) (val : Int)
    (desc : String) : ProtectedResource :=
  { pr with value := val, description := desc }

/-- `GetData` (resource.go lines 63-69): locks mu, reads `value` and
`description`, unlocks, returns both. -/
def ProtectedResource.GetData (pr : ProtectedResource) : Int × String :=
  (pr.value, pr.description)

/-- `GetID` (resource.go lines 93-95): reads the unguarded `id`. -/
def ProtectedResource.GetID (pr : ProtectedResource) : String := pr.id

/-- `SetID` (resource.go lines 98-100): writes the unguarded `id`. -/
def ProtectedResource.SetID (pr : ProtectedResource) (newID : String) :
    ProtectedResource :=
  { pr with id := newID }

end Resource

namespace CheckLocks

theorem LockState.get_set_same (s : LockState) (l : LockId) (m : Mode) :
    (s.set l m).get l = m := by
  cases l <;> rfl

theorem LockState.get_set_other (s : LockState) (l lo : LockId) (m : Mode)
    (h : l ≠ lo) : (s.set lo m).get l = s.get l := by
  cases l <;> cases lo <;> simp_all [LockState.set, LockState.get]

theorem applyAcquires_keeps_exclusive (ls : List LockId) (s : LockState)
    (loc : Nat) (l : LockId) (h : s.get l = .heldExclusive) :
    ((applyAcquires ls s loc).2).get l = .heldExclusive := by
  induction ls generalizing s with
  | nil => exact h
  | cons lo rest ih =>
      simp only [applyAcquires, applyAcquire]
      apply ih
      by_cases hl : l = lo
      · subst hl; exact LockState.get_set_same s l .heldExclusive
      · rw [LockState.get_set_other s l lo _ hl]; exact h

theorem applyReleases_other (ls : List LockId) (s : LockState)
    (loc : Nat) (l : LockId) (h : ls.contains l = false) :
    ((applyReleases ls s loc).2).get l = s.get l := by
  induction ls generalizing s with
  | nil => rfl
  | cons lo rest ih =>
      simp only [List.contains_cons, Bool.or_eq_false_iff, beq_eq_false_iff_ne,
        ne_eq] at h
      simp only [applyReleases, applyRelease]
      rw [ih _ h.2, LockState.get_set_other s l lo _ h.1]

theorem checkCall_keeps_exclusive (fc : FunctionContract) (s : LockState)
    (loc : Nat) (l : LockId) (h : s.get l = .heldExclusive)
    (hr : fc.releases.contains l = false) :
    ((checkCall fc s loc).2).get l = .heldExclusive := by
  simp only [checkCall]
  rw [applyReleases_other _ _ _ _ hr]
  exact applyAcquires_keeps_exclusive _ _ _ _ h

theorem stepInstr_keeps_exclusive (i : Instr) (s : LockState) (loc : Nat)
    (l : LockId) (h : s.get l = .heldExclusive)
    (hr : releasesLock l i = false) :
    ((stepInstr i s loc).2).get l = .heldExclusive := by
  cases i with
  | access fc w a => exact h
  | lockAcquire lo shared =>
      by_cases hc : s.get lo = .heldExclusive
      · simp [stepInstr, hc]; exact h
      · simp only [stepInstr, hc, if_false]
        have hl : l ≠ lo := fun e => hc (e ▸ h)
        rw [LockState.get_set_other s l lo _ hl]; exact h
  | lockRelease lo shared =>
      simp only [releasesLock, beq_eq_false_iff_ne, ne_eq] at hr
      have hl : l ≠ lo := fun e => hr e.symm
      by_cases hc : s.get lo = .notHeld <;>
        simp [stepInstr, hc, LockState.get_set_other s l lo _ hl, h]
  | call fc =>
      simp only [releasesLock] at hr
      exact checkCall_keeps_exclusive fc s loc l h hr
  | force lo =>
      by_cases hl : l = lo
      · subst hl; simp [stepInstr, LockState.get_set_same]
      · simp only [stepInstr]
        rw [LockState.get_set_other s l lo _ hl]; exact h

theorem runBody_keeps_exclusive (body : List Instr) (s : LockState)
    (loc : Nat) (l : LockId) (h : s.get l = .heldExclusive)
    (hr : ∀ i ∈ body, releasesLock l i = false) :
    ((runBody body s loc).2).get l = .heldExclusive := by
  induction body generalizing s loc with
  | nil => exact h
  | cons i rest ih =>
      simp only [runBody]
      exact ih _ _
        (stepInstr_keeps_exclusive i s loc l h (hr i (List.mem_cons_self i rest)))
        (fun j hj => hr j (List.mem_cons_of_mem i hj))

end CheckLocks

open CheckLocks Resource

/-- C1: for any Mixed field, a write emits a lock-violation diagnostic
iff the guarding lock is not HeldExclusive at the write, and an
atomic-violation diagnostic iff the write is not atomic-qualified; when
both conditions are missing on a single write these two diagnostics are
reported independently, not collapsed into one — as in the embedded
`WriteMixedIncorrectNeither`, which receives exactly one lock and one
atomic diagnostic at its single statement. -/
theorem C1_mixed_write_independent_diagnostics :
    (∀ (l : LockId) (a : Bool) (s : LockState) (loc : Nat),
      checkFieldAccess (.mixed l) true a s loc =
        (if s.get l = .heldExclusive then [] else [⟨.accessViolation, loc, s⟩]) ++
        (if a then [] else [⟨.atomicAccessViolation, loc, s⟩])
      ∧ ((⟨.accessViolation, loc, s⟩ : Diagnostic) ∈
            checkFieldAccess (.mixed l) true a s loc ↔ s.get l ≠ .heldExclusive)
      ∧ ((⟨.atomicAccessViolation, loc, s⟩ : Diagnostic) ∈
            checkFieldAccess (.mixed l) true a s loc ↔ a = false))
    ∧ analyzeFunction .none writeMixedIncorrectNeitherBody =
        [⟨.accessViolation, 0, .none⟩, ⟨.atomicAccessViolation, 0, .none⟩] := by
  constructor
  · intro l a s loc
    refine ⟨rfl, ?_, ?_⟩ <;>
      by_cases h : s.get l = .heldExclusive <;> cases a <;>
        simp [checkFieldAccess, h]
  · decide

/-- C2: for any Guarded field, a diagnostic is emitted at an access site
iff the propagated lock state there is not HeldExclusive for the
guarding lock; the embedded `IncorrectSetData`, which writes two
mu-guarded fields with no surrounding lock, receives exactly one
AccessViolation per write statement. -/
theorem C2_guarded_access_iff_not_exclusive :
    (∀ (l : LockId) (w a : Bool) (s : LockState) (loc : Nat),
      checkFieldAccess (.guarded l) w a s loc =
        (if s.get l = .heldExclusive then [] else [⟨.accessViolation, loc, s⟩])
      ∧ (checkFieldAccess (.guarded l) w a s loc ≠ [] ↔
          s.get l ≠ .heldExclusive))
    ∧ analyzeFunction .none incorrectSetDataBody =
        [⟨.accessViolation, 0, .none⟩, ⟨.accessViolation, 1, .none⟩] := by
  constructor
  · intro l w a s loc
    refine ⟨rfl, ?_⟩
    by_cases h : s.get l = .heldExclusive <;> simp [checkFieldAccess, h]
  · decide

/-- C3: a call to a function carrying Releases(l) while the caller's
state for l is NotHeld produces both a CallPreconditionViolation and a
ReleaseViolation at that single call site, and the caller's state for l
after the call is NotHeld; the embedded
`CallAcquireReleaseIncorrectRelease` shows exactly these two
diagnostics at its single statement. -/
theorem C3_release_while_not_held :
    (∀ (l : LockId) (s : LockState) (loc : Nat),
      s.get l = .notHeld →
        checkCall ⟨[], [], [l], false⟩ s loc =
          ([⟨.callPreconditionViolation, loc, s⟩, ⟨.releaseViolation, loc, s⟩],
            s.set l .notHeld)
        ∧ ((checkCall ⟨[], [], [l], false⟩ s loc).2).get l = .notHeld)
    ∧ analyzeFunction .none callAcquireReleaseIncorrectReleaseBody =
        [⟨.callPreconditionViolation, 0, .none⟩, ⟨.releaseViolation, 0, .none⟩] := by
  constructor
  · intro l s loc h
    constructor
    · simp [checkCall, applyAcquires, applyReleases, applyRelease, h]
    · simp [checkCall, applyAcquires, applyReleases, applyRelease, h,
        LockState.get_set_same]
  · decide

/-- Witness for C3 at the concrete input of the demo: lock
`acquireReleaseMu`, the empty lock state, call location 0. -/
theorem C3_release_while_not_held_witness :
    checkCall ⟨[], [], [.acquireReleaseMu], false⟩ LockState.none 0 =
      ([⟨.callPreconditionViolation, 0, .none⟩, ⟨.releaseViolation, 0, .none⟩],
        LockState.none.set .acquireReleaseMu .notHeld) :=
  (C3_release_while_not_held.1 .acquireReleaseMu LockState.none 0 rfl).1

/-- C4: a call to a function carrying Acquires(l) while the caller's
state for l is already HeldExclusive produces exactly one
AcquireViolation, and the caller's state for l after the call remains
HeldExclusive; the embedded `CallAcquireReleaseIncorrectAcquire` shows
exactly one AcquireViolation with the lock still held at the call. -/
theorem C4_acquire_while_already_held :
    (∀ (l : LockId) (s : LockState) (loc : Nat),
      s.get l = .heldExclusive →
        checkCall ⟨[], [l], [], false⟩ s loc =
          ([⟨.acquireViolation, loc, s⟩], s.set l .heldExclusive)
        ∧ ((checkCall ⟨[], [l], [], false⟩ s loc).2).get l = .heldExclusive)
    ∧ analyzeFunction .none callAcquireReleaseIncorrectAcquireBody =
        [⟨.acquireViolation, 1, ⟨.notHeld, .notHeld, .heldExclusive⟩⟩] := by
  constructor
  · intro l s loc h
    constructor
    · simp [checkCall, applyAcquires, applyAcquire, applyReleases, h]
    · simp [checkCall, applyAcquires, applyAcquire, applyReleases, h,
        LockState.get_set_same]
  · decide

/-- Witness for C4 at the concrete input of the demo: lock
`acquireReleaseMu` already held exclusively, call location 1. -/
theorem C4_acquire_while_already_held_witness :
    checkCall ⟨[], [.acquireReleaseMu], [], false⟩
        ⟨.notHeld, .notHeld, .heldExclusive⟩ 1 =
      ([⟨.acquireViolation, 1, ⟨.notHeld, .notHeld, .heldExclusive⟩⟩],
        LockState.set ⟨.notHeld, .notHeld, .heldExclusive⟩
          .acquireReleaseMu .heldExclusive) :=
  (C4_acquire_while_already_held.1 .acquireReleaseMu
    ⟨.notHeld, .notHeld, .heldExclusive⟩ 1 rfl).1

/-- C5: a Force directive on lock l sets the propagated state for l to
HeldExclusive at every subsequent program point until function exit,
absent a real release of l; consequently no diagnostic fires for an
access to an l-guarded field after the Force point; and in the embedded
`ForceExample`, where the forced lock is never really released, the
exit-state check raises an ExitStateViolation (return with unexpected
locks held) while the only access diagnostic is the one before the
Force. -/
theorem C5_force_state_persists :
    (∀ (l : LockId) (post : List Instr) (s : LockState) (loc loc2 k : Nat),
      (∀ i ∈ post, releasesLock l i = false) →
        ((runBody (post.take k) ((stepInstr (.force l) s loc).2) loc2).2).get l =
          .heldExclusive)
    ∧ (∀ (l : LockId) (w a : Bool) (s : LockState) (loc : Nat),
        s.get l = .heldExclusive → checkFieldAccess (.guarded l) w a s loc = [])
    ∧ analyzeFunction .none forceExampleBody =
        [⟨.accessViolation, 0, .none⟩,
          ⟨.exitStateViolation, 4, ⟨.heldExclusive, .notHeld, .notHeld⟩⟩] := by
  refine ⟨?_, ?_, by decide⟩
  · intro l post s loc loc2 k hr
    apply runBody_keeps_exclusive
    · simp [stepInstr, LockState.get_set_same]
    · exact fun i hi => hr i (List.take_subset k post hi)
  · intro l w a s loc h
    simp [checkFieldAccess, h]

/-- Witness for C5 at a concrete input: after forcing `mu` in the empty
state, the state at every point of the one-statement continuation that
writes the mu-guarded `description` keeps `mu` HeldExclusive, and an
access to a mu-guarded field under that state yields no diagnostic. -/
theorem C5_force_state_persists_witness :
    ((runBody ([Instr.access fcDescription true false].take 1)
        ((stepInstr (.force .mu) LockState.none 0).2) 1).2).get .mu =
      .heldExclusive
    ∧ checkFieldAccess (.guarded .mu) true false
        ⟨.heldExclusive, .notHeld, .notHeld⟩ 3 = [] :=
  ⟨C5_force_state_persists.1 .mu [Instr.access fcDescription true false]
      LockState.none 0 1 1 (by decide),
    C5_force_state_persists.2.1 .mu true false
      ⟨.heldExclusive, .notHeld, .notHeld⟩ 3 rfl⟩

/-- C6: a function carrying the Ignored contract never yields any
diagnostic for statements inside its own body, for any body; yet a
caller of that function is still checked normally against its own
contracts (call-site checking is independent of the Ignored flag, the
embedded `CallIgnoredFunction` is clean, and a caller that violates its
own contract while calling the ignored function still receives its own
diagnostic). -/
theorem C6_ignored_suppresses_body_checks :
    (∀ (fc : FunctionContract) (body : List Instr),
      fc.ignored = true → analyzeFunction fc body = [])
    ∧ (∀ (r : List (LockId × Mode)) (acq rel : List LockId) (s : LockState)
        (loc : Nat),
        checkCall ⟨r, acq, rel, true⟩ s loc = checkCall ⟨r, acq, rel, false⟩ s loc)
    ∧ analyzeFunction functionToIgnoreContract functionToIgnoreBody = []
    ∧ analyzeFunction .none callIgnoredFunctionBody = []
    ∧ analyzeFunction .none callerOfIgnoredBody =
        [⟨.accessViolation, 1, .none⟩] := by
  refine ⟨?_, ?_, by decide, by decide, by decide⟩
  · intro fc body h
    simp [analyzeFunction, h]
  · intro r acq rel s loc
    rfl

/-- Witness for C6 at a concrete input: the embedded ignored demo
function, whose body writes a mu-guarded field with no lock held,
yields no diagnostic. -/
theorem C6_ignored_suppresses_body_checks_witness :
    analyzeFunction functionToIgnoreContract [Instr.access fcValue true false] =
      [] :=
  C6_ignored_suppresses_body_checks.1 functionToIgnoreContract
    [Instr.access fcValue true false] rfl

/-- C7: at a call with a Requires(lock, mode) precondition, a
CallPreconditionViolation is emitted iff the caller's state for the
lock does not equal or exceed the required mode — HeldExclusive
satisfies a shared requirement while HeldShared does not satisfy an
exclusive one — and the caller's lock state is unchanged by the call;
the embedded `CallReadDataRLockedIncorrect` receives exactly one such
diagnostic while `CallReadDataRLockedCorrect` receives none. -/
theorem C7_requires_mode_check :
    (∀ (l : LockId) (m : Mode) (s : LockState) (loc : Nat) (ign : Bool),
      checkCall ⟨[(l, m)], [], [], ign⟩ s loc =
        ((if (s.get l).geq m then []
          else [⟨.callPreconditionViolation, loc, s⟩]), s))
    ∧ Mode.geq .heldExclusive .heldShared = true
    ∧ Mode.geq .heldShared .heldExclusive = false
    ∧ analyzeFunction .none callReadDataRLockedIncorrectBody =
        [⟨.callPreconditionViolation, 0, .none⟩]
    ∧ analyzeFunction .none callReadDataRLockedCorrectBody = [] := by
  refine ⟨?_, rfl, rfl, by decide, by decide⟩
  intro l m s loc ign
  simp [checkCall, applyAcquires, applyReleases]

/-- C8: for any AtomicOnly field, an AtomicAccessViolation is emitted
iff a direct (non-atomic) read or write is observed; atomic-qualified
operations never produce a diagnostic, and the outcome is independent
of the lock state at the point; the embedded
`IncorrectDirectReadAtomic` receives exactly one AtomicAccessViolation
while `IncrementAtomicCorrect` receives none. -/
theorem C8_atomic_only_direct_access :
    (∀ (w a : Bool) (s s2 : LockState) (loc : Nat),
      checkFieldAccess .atomicOnly w a s loc =
        (if a then [] else [⟨.atomicAccessViolation, loc, s⟩])
      ∧ checkFieldAccess .atomicOnly w true s loc = []
      ∧ ((checkFieldAccess .atomicOnly w a s loc = []) ↔
          (checkFieldAccess .atomicOnly w a s2 loc = [])))
    ∧ analyzeFunction .none incorrectDirectReadAtomicBody =
        [⟨.atomicAccessViolation, 0, .none⟩]
    ∧ analyzeFunction .none incrementAtomicCorrectBody = [] := by
  refine ⟨?_, by decide, by decide⟩
  intro w a s s2 loc
  refine ⟨rfl, rfl, ?_⟩
  cases a <;> simp [checkFieldAccess]

/-- C9: for every ProtectedResource and every pair of arguments,
calling SetData and then GetData returns exactly the stored pair: a
store/load round-trip. -/
theorem C9_setdata_getdata_roundtrip (pr : ProtectedResource) (val : Int)
    (desc : String) : (pr.SetData val desc).GetData = (val, desc) := rfl

/-- C10: SetID modifies only the unguarded id field — value,
description, readGuardedValue, atomicValue, mixedValue and
acquireReleaseValue are unchanged — and a subsequent GetID returns the
new id. -/
theorem C10_setid_frame (pr : ProtectedResource) (newID : String) :
    (pr.SetID newID).GetID = newID
    ∧ (pr.SetID newID).value = pr.value
    ∧ (pr.SetID newID).description = pr.description
    ∧ (pr.SetID newID).readGuardedValue = pr.readGuardedValue
    ∧ (pr.SetID newID).atomicValue = pr.atomicValue
    ∧ (pr.SetID newID).mixedValue = pr.mixedValue
    ∧ (pr.SetID newID).acquireReleaseValue = pr.acquireReleaseValue :=
  ⟨rfl, rfl, rfl, rfl, rfl, rfl, rfl⟩
